import Mathlib

/-!
Shallow embedding of the transaction-management core of the
`rif-relay-server` repository (source file: `TransactionManager.ts`,
given as `src/unnamed/part_000`).

Modelling conventions:
- JavaScript numbers are modelled as exact rationals (`ℚ`) where the source
  multiplies by configured float factors (gas prices), as integers (`ℤ`)
  where the source does block arithmetic, and as `ℕ` for nonces and counts.
- Fallible operations return `Except TxError _`; a thrown JS exception is an
  `Except.error`.
- The in-memory `nonces: Record<string, number>` is a total function
  `String → Option ℕ`; `none` models a missing entry (JS `undefined`).
  A JS comparison `n > undefined` is `false`, which `jsGtOpt` captures, and
  `undefined++` yields `NaN`, which `bumpNonce` maps to `none` as well.
- The mutex-guarded single-threaded execution of `sendTransaction` is
  modelled by explicit state passing (`ManagerState`); acquiring and
  releasing the mutex are no-ops in a sequential embedding.
- The chain interactor, secp256k1 signing and keccak hashing are opaque
  oracles collected in `Env`, since they are external collaborators.
-/

namespace RifRelay

/-- Tag describing why the relay sent a transaction (from the spec's data
model; the source imports it from `StoredTransaction.ts`). -/
inductive ServerAction where
  | RelayCall
  | SetHashApproval
  | DepositWithdraw
  | ValueTransfer
deriving DecidableEq, Repr

/-- Configuration options used by `TransactionManager`
(`ServerConfigParams`).  `maxGasPrice` is stored as a string in the source
and read with `parseInt`, hence an integer here. -/
structure ServerConfigParams where
  retryGasPriceFactor : ℚ
  maxGasPrice : ℤ
  estimateGasFactor : ℚ
  defaultGasLimit : ℤ
  confirmationsNeeded : ℤ
  pendingTransactionTimeoutBlocks : ℤ

/-- An unsigned chain transaction, as passed to `new Transaction({...})` of
`ethereumjs-tx`.  When the source omits `value` the library defaults it to
zero, so `value` is a plain `ℕ` here. -/
structure RawTx where
  toAddr : String
  value : ℕ
  gasLimit : ℕ
  gasPrice : ℚ
  data : String
  nonce : ℕ
deriving DecidableEq, Repr

/-- A key manager holds a list of addresses whose private keys it owns
(`KeyManager`). -/
structure KeyManager where
  ownedAddresses : List String
deriving DecidableEq, Repr

/-- KeyManager.getAddress: the i-th owned address. -/
def KeyManager.getAddress (km : KeyManager) (index : ℕ) : String :=
  km.ownedAddresses.getD index ""

/-- KeyManager.isSigner: whether this key manager owns `signer`. -/
def KeyManager.isSigner (km : KeyManager) (signer : String) : Bool :=
  km.ownedAddresses.contains signer

/-- Transaction receipt as read by `removeConfirmedTransactions`
(`contractInteractor.getTransaction`): block number (absent while pending),
sender and nonce. -/
structure Receipt where
  blockNumber : Option ℤ
  fromAddr : String
  nonce : ℕ
deriving DecidableEq, Repr

/-- The external collaborators of `TransactionManager`: the two key
managers, the abstract signing and hashing primitives, the chain
interactor's query functions, and the server configuration.  All chain
responses are modelled as fixed oracles of the environment. -/
structure Env where
  managerKeyManager : KeyManager
  workersKeyManager : KeyManager
  /-- secp256k1 signing of a raw transaction with the key of the given
  address (deterministic per address); returns the signed raw bytes. -/
  sign : String → RawTx → String
  /-- keccak-256 hash of signed bytes, as a hex string; `tx.hash()` of a
  signed `ethereumjs-tx` transaction. -/
  keccak : String → String
  /-- contractInteractor.getGasPrice(). -/
  getGasPrice : ℚ
  /-- contractInteractor.getTransactionCount(signer, 'pending'). -/
  getTransactionCountPending : String → ℕ
  /-- contractInteractor.getTransactionCount(signer) — latest. -/
  getTransactionCountLatest : String → ℕ
  /-- contractInteractor.broadcastTransaction(signedTx) — the transaction
  hash returned by the node. -/
  broadcastTransaction : String → String
  /-- contractInteractor.getTransaction(txId) — the receipt, if any. -/
  getTransaction : String → Option Receipt
  config : ServerConfigParams

/-- Errors raised by the transaction-management core (spec §7):
`UnknownSigner` when no key manager owns the requested signer,
`DuplicateNonce` when the store rejects a non-replacing insert, and
`HashMismatch` when the broadcast returns a hash differing from the locally
derived one. -/
inductive TxError where
  | UnknownSigner
  | DuplicateNonce
  | HashMismatch (receiptHash : String) (storeTxId : String)
deriving DecidableEq, Repr

/-- KeyManager.signTransaction.

Modelled from the spec: the body of `KeyManager.signTransaction` lives in
`src/KeyManager.ts`, which is not among the provided source files.  Per the
spec the key manager "holds N signing keys" and exposes
`sign_transaction(addr, tx) → signed_bytes`; it can only produce a
signature with a key it actually holds, so signing for an address it does
not own fails — the spec's `UnknownSigner` error ("no KeyManager owns the
requested signer"). -/
def KeyManager.signTransaction (km : KeyManager) (sign : String → RawTx → String)
    (signer : String) (tx : RawTx) : Except TxError String :=
  if km.isSigner signer then .ok (sign signer tx) else .error .UnknownSigner

/-- Result of a successful send or resend (`SignedTransactionDetails`). -/
structure SignedTransactionDetails where
  transactionHash : String
  signedTx : String
deriving DecidableEq, Repr

/-- Metadata attached when persisting a transaction
(`StoredTransactionMetadata`).  `from` is a Lean keyword, hence
`fromAddr`. -/
structure StoredTransactionMetadata where
  fromAddr : String
  attempts : ℕ
  serverAction : ServerAction
  creationBlockNumber : ℤ
  boostBlockNumber : Option ℤ
  minedBlockNumber : Option ℤ
deriving DecidableEq, Repr

/-- One persisted in-flight transaction (`StoredTransaction`): the raw
transaction fields plus the metadata and the derived `txId`. -/
structure StoredTransaction where
  txId : String
  fromAddr : String
  toAddr : String
  nonce : ℕ
  gas : ℕ
  gasPrice : ℚ
  data : String
  value : ℕ
  serverAction : ServerAction
  creationBlockNumber : ℤ
  boostBlockNumber : Option ℤ
  minedBlockNumber : Option ℤ
  attempts : ℕ
deriving DecidableEq, Repr

/-- createStoredTransaction.

Modelled from the spec: the body of `createStoredTransaction` lives in
`src/StoredTransaction.ts`, which is not among the provided source files.
Per the spec the row carries the transaction fields and the metadata, and
"`tx_id` equals the hash derived from the remaining fields plus signature":
the source signs `txToSign` in place before calling this, so the id is the
keccak hash of the signed bytes of `tx` under the key of `metadata.from`. -/
def createStoredTransaction (env : Env) (tx : RawTx)
    (metadata : StoredTransactionMetadata) : StoredTransaction :=
  { txId := env.keccak (env.sign metadata.fromAddr tx)
    fromAddr := metadata.fromAddr
    toAddr := tx.toAddr
    nonce := tx.nonce
    gas := tx.gasLimit
    gasPrice := tx.gasPrice
    data := tx.data
    value := tx.value
    serverAction := metadata.serverAction
    creationBlockNumber := metadata.creationBlockNumber
    boostBlockNumber := metadata.boostBlockNumber
    minedBlockNumber := metadata.minedBlockNumber
    attempts := metadata.attempts }

/-! ### TxStore (`TxStoreManager`)

Modelled from the spec (§4.1): `src/TxStoreManager.ts` is not among the
provided source files.  The store is the collection of rows keyed by
`(from, nonce)`; `put` with `replace_existing = false` fails with
`DuplicateNonce` when the key is taken, with `true` it overwrites; reads
return rows sorted ascending. -/

/-- Rows with the same `(from, nonce)` key as `tx`. -/
def sameKey (tx r : StoredTransaction) : Bool :=
  r.fromAddr == tx.fromAddr && r.nonce == tx.nonce

/-- The `replace_existing = true` path of `put`: atomically overwrite the
row with the same `(from, nonce)` key. -/
def putTxReplace (store : List StoredTransaction) (tx : StoredTransaction) :
    List StoredTransaction :=
  store.filter (fun r => !(sameKey tx r)) ++ [tx]

/-- TxStore `put` (`txStoreManager.putTx(tx, replaceExisting)`). -/
def putTx (store : List StoredTransaction) (tx : StoredTransaction)
    (replaceExisting : Bool) : Except TxError (List StoredTransaction) :=
  if replaceExisting then .ok (putTxReplace store tx)
  else if store.any (sameKey tx) then .error .DuplicateNonce
  else .ok (store ++ [tx])

/-- Insert into a list sorted ascending by nonce. -/
def insertByNonce (t : StoredTransaction) :
    List StoredTransaction → List StoredTransaction
  | [] => [t]
  | x :: xs => if t.nonce ≤ x.nonce then t :: x :: xs else x :: insertByNonce t xs

/-- Insertion sort by ascending nonce. -/
def sortByNonce : List StoredTransaction → List StoredTransaction
  | [] => []
  | x :: xs => insertByNonce x (sortByNonce xs)

/-- Lexicographic `(from, nonce)` order used by `getAll`. -/
def leFromNonce (a b : StoredTransaction) : Bool :=
  a.fromAddr < b.fromAddr || (a.fromAddr == b.fromAddr && a.nonce ≤ b.nonce)

/-- Insert into a list sorted ascending by `(from, nonce)`. -/
def insertByFromNonce (t : StoredTransaction) :
    List StoredTransaction → List StoredTransaction
  | [] => [t]
  | x :: xs => if leFromNonce t x then t :: x :: xs else x :: insertByFromNonce t xs

/-- Insertion sort by ascending `(from, nonce)`. -/
def sortByFromNonce : List StoredTransaction → List StoredTransaction
  | [] => []
  | x :: xs => insertByFromNonce x (sortByFromNonce xs)

/-- TxStore `getAll`: every row, sorted ascending by `(from, nonce)`. -/
def getAll (store : List StoredTransaction) : List StoredTransaction :=
  sortByFromNonce store

/-- TxStore `getAllBySigner`: the signer's rows, sorted ascending by
nonce. -/
def getAllBySigner (store : List StoredTransaction) (signer : String) :
    List StoredTransaction :=
  sortByNonce (store.filter (fun t => t.fromAddr == signer))

/-- TxStore `removeTxsUntilNonce(from, nonce)`: delete every row of `from`
with nonce up to and including `nonce`. -/
def removeTxsUntilNonce (store : List StoredTransaction) (fromAddr : String)
    (nonce : ℕ) : List StoredTransaction :=
  store.filter (fun r => !(r.fromAddr == fromAddr && r.nonce ≤ nonce))

/-! ### TransactionManager state and nonce handling -/

/-- The mutable state of a `TransactionManager`: the in-memory per-signer
nonce counters (`this.nonces`) and the content of the transaction store. -/
structure ManagerState where
  nonces : String → Option ℕ
  store : List StoredTransaction

/-- The JavaScript comparison `a > b` where `b` may be `undefined`
(a missing `Record` entry): comparing with `undefined` is `false`. -/
def jsGtOpt (a : ℕ) (b : Option ℕ) : Bool :=
  match b with
  | some c => decide (c < a)
  | none => false

/-- `_initNonces`: the counters after construction — address 0 of the
manager key manager and address 0 of the workers key manager are set to 0,
every other entry is absent. -/
def _initNonces (env : Env) : String → Option ℕ :=
  Function.update
    (Function.update (fun _ => none) (env.managerKeyManager.getAddress 0) (some 0))
    (env.workersKeyManager.getAddress 0) (some 0)

/-- `pollNonce(signer)`: read the chain's pending transaction count; if it
exceeds the in-memory counter, overwrite the counter ("NONCE FIX"); return
the counter entry.  Returns the updated counter map together with the
returned entry (`none` models JS `undefined` for an absent entry). -/
def pollNonce (env : Env) (nonces : String → Option ℕ) (signer : String) :
    (String → Option ℕ) × Option ℕ :=
  let nonce := env.getTransactionCountPending signer
  if jsGtOpt nonce (nonces signer) then
    let nonces1 := Function.update nonces signer (some nonce)
    (nonces1, nonces1 signer)
  else
    (nonces, nonces signer)

/-- The statement `this.nonces[signer]++`.  On a present entry it adds 1;
on an absent entry JS produces `NaN`, which this embedding keeps as
`none`. -/
def bumpNonce (nonces : String → Option ℕ) (signer : String) :
    String → Option ℕ :=
  Function.update nonces signer ((nonces signer).map (fun c => c + 1))

/-! ### sendTransaction -/

/-- Argument record of `sendTransaction` (`SendTransactionDetails`).
`method` stands for `method?.encodeABI()`: the ABI-encoded call data the
dynamic `method` object would produce, absent when no method is given. -/
structure SendTransactionDetails where
  signer : String
  serverAction : ServerAction
  method : Option String
  destination : String
  value : Option String
  gasLimit : ℕ
  gasPrice : Option ℚ
  creationBlockNumber : ℤ

/-- Numeric value of a hex digit. -/
def hexDigitVal (c : Char) : ℕ :=
  if c.isDigit then c.toNat - 48
  else if 'a' ≤ c ∧ c ≤ 'f' then c.toNat - 87
  else if 'A' ≤ c ∧ c ≤ 'F' then c.toNat - 55
  else 0

/-- Numeric value of a `0x`-prefixed hex string (the parse `ethereumjs-tx`
applies to the `value` field; `"0x"` is zero). -/
def hexToNat (s : String) : ℕ :=
  (s.data.drop 2).foldl (fun a c => 16 * a + hexDigitVal c) 0

/-- Lower-casing of a hex string (`String.prototype.toLowerCase`). -/
def lowerStr (s : String) : String :=
  String.mk (s.data.map Char.toLower)

/-- The `pollNonce` call made inside `sendTransaction`: updated counter map
and polled entry. -/
def sendNoncePair (env : Env) (st : ManagerState) (d : SendTransactionDetails) :
    (String → Option ℕ) × Option ℕ :=
  pollNonce env st.nonces d.signer

/-- The unsigned transaction `sendTransaction` builds (`txToSign`): the
destination, the defaulted value, the gas limit, the resolved gas price,
the encoded call data without its `0x` prefix, and the polled nonce
(`ethereumjs-tx` treats an `undefined` nonce as 0). -/
def sendTxToSign (env : Env) (st : ManagerState) (d : SendTransactionDetails) :
    RawTx :=
  { toAddr := d.destination
    value := hexToNat (d.value.getD "0x")
    gasLimit := d.gasLimit
    gasPrice := d.gasPrice.getD env.getGasPrice
    data := String.mk ((d.method.getD "0x").data.drop 2)
    nonce := (sendNoncePair env st d).2.getD 0 }

/-- The signed bytes `sendTransaction` obtains when the selected key
manager owns the signer. -/
def sendSignedTx (env : Env) (st : ManagerState) (d : SendTransactionDetails) :
    String :=
  env.sign d.signer (sendTxToSign env st d)

/-- The metadata `sendTransaction` persists: first attempt, no boost and no
mined block yet. -/
def sendMetadata (d : SendTransactionDetails) : StoredTransactionMetadata :=
  { fromAddr := d.signer
    attempts := 1
    serverAction := d.serverAction
    creationBlockNumber := d.creationBlockNumber
    boostBlockNumber := none
    minedBlockNumber := none }

/-- The row `sendTransaction` persists (`storedTx`). -/
def sendStoredTx (env : Env) (st : ManagerState) (d : SendTransactionDetails) :
    StoredTransaction :=
  createStoredTransaction env (sendTxToSign env st d) (sendMetadata d)

/-- `sendTransaction` (`TransactionManager.sendTransaction`):
poll the nonce, build and sign the transaction, persist it with
`put(replace_existing = false)`, increment the in-memory counter
immediately before the `put`, release the mutex, broadcast, and compare the
returned hash against the stored `txId` case-insensitively.  Returns the
state after the call together with the result. -/
def sendTransaction (env : Env) (st : ManagerState)
    (d : SendTransactionDetails) :
    ManagerState × Except TxError SignedTransactionDetails :=
  let nonces1 := (sendNoncePair env st d).1
  let txToSign := sendTxToSign env st d
  let keyManager := if env.managerKeyManager.isSigner d.signer
    then env.managerKeyManager else env.workersKeyManager
  match keyManager.signTransaction env.sign d.signer txToSign with
  | .error e => ({ nonces := nonces1, store := st.store }, .error e)
  | .ok signedTx =>
    let storedTx := sendStoredTx env st d
    let nonces2 := bumpNonce nonces1 d.signer
    match putTx st.store storedTx false with
    | .error e => ({ nonces := nonces2, store := st.store }, .error e)
    | .ok store1 =>
      let st1 : ManagerState := { nonces := nonces2, store := store1 }
      let transactionHash := env.broadcastTransaction signedTx
      if lowerStr transactionHash ≠ lowerStr storedTx.txId then
        (st1, .error (.HashMismatch transactionHash storedTx.txId))
      else
        (st1, .ok { transactionHash := transactionHash, signedTx := signedTx })

/-! ### Re-pricing and resending -/

/-- `updateTransactionWithMinedBlock`: overwrite the row with an updated
`minedBlockNumber` via `put(replace_existing = true)`. -/
def updateTransactionWithMinedBlock (store : List StoredTransaction)
    (tx : StoredTransaction) (minedBlockNumber : ℤ) : List StoredTransaction :=
  putTxReplace store { tx with minedBlockNumber := some minedBlockNumber }

/-- `updateTransactionWithAttempt`: build the replacement row from the new
unsigned transaction — attempts bumped, `boostBlockNumber := currentBlock`,
`from`, `serverAction`, `creationBlockNumber` and `minedBlockNumber`
preserved — and overwrite via `put(replace_existing = true)`.  Returns the
new store content and the replacement row. -/
def updateTransactionWithAttempt (env : Env) (store : List StoredTransaction)
    (txToSign : RawTx) (tx : StoredTransaction) (currentBlock : ℤ) :
    List StoredTransaction × StoredTransaction :=
  let metadata : StoredTransactionMetadata :=
    { attempts := tx.attempts + 1
      boostBlockNumber := some currentBlock
      fromAddr := tx.fromAddr
      serverAction := tx.serverAction
      creationBlockNumber := tx.creationBlockNumber
      minedBlockNumber := tx.minedBlockNumber }
  let storedTx := createStoredTransaction env txToSign metadata
  (putTxReplace store storedTx, storedTx)

/-- The unsigned transaction `resendTransaction` builds: same `to`,
`gasLimit` (= stored `gas`), `data` and `nonce` as the stored row, the new
gas price, and no `value` field — `ethereumjs-tx` defaults it to zero. -/
def resendTxToSign (tx : StoredTransaction) (newGasPrice : ℚ) : RawTx :=
  { toAddr := tx.toAddr
    value := 0
    gasLimit := tx.gas
    gasPrice := newGasPrice
    data := tx.data
    nonce := tx.nonce }

/-- `resendTransaction` (`TransactionManager.resendTransaction`): rebuild
the transaction with the new gas price, sign it with the key manager
selected for the stored row's sender, overwrite the stored row via
`updateTransactionWithAttempt`, broadcast, and compare the returned hash
case-insensitively.  `isMaxGasPriceReached` only affects logging. -/
def resendTransaction (env : Env) (st : ManagerState) (tx : StoredTransaction)
    (currentBlock : ℤ) (newGasPrice : ℚ) (isMaxGasPriceReached : Bool) :
    ManagerState × Except TxError SignedTransactionDetails :=
  let _ := isMaxGasPriceReached
  let txToSign := resendTxToSign tx newGasPrice
  let keyManager := if env.managerKeyManager.isSigner tx.fromAddr
    then env.managerKeyManager else env.workersKeyManager
  match keyManager.signTransaction env.sign tx.fromAddr txToSign with
  | .error e => (st, .error e)
  | .ok signedTx =>
    let pair := updateTransactionWithAttempt env st.store txToSign tx currentBlock
    let st1 : ManagerState := { st with store := pair.1 }
    let storedTx := pair.2
    let transactionHash := env.broadcastTransaction signedTx
    if lowerStr transactionHash ≠ lowerStr storedTx.txId then
      (st1, .error (.HashMismatch transactionHash storedTx.txId))
    else
      (st1, .ok { transactionHash := transactionHash, signedTx := signedTx })

/-- `_resolveNewGasPrice(oldGasPrice)`: multiply by the configured retry
factor; clamp to `maxGasPrice` when the product exceeds it, reporting the
clamp in the second component.  The source applies no rounding. -/
def _resolveNewGasPrice (config : ServerConfigParams) (oldGasPrice : ℚ) :
    ℚ × Bool :=
  let newGasPrice := oldGasPrice * config.retryGasPriceFactor
  if newGasPrice > (config.maxGasPrice : ℚ) then ((config.maxGasPrice : ℚ), true)
  else (newGasPrice, false)

/-- `attemptEstimateGas(methodName, method, from)`: the chain estimation
outcome is passed in as an `Except`; on success the result is scaled by
`estimateGasFactor` and rounded (`Math.round`), on failure the configured
`defaultGasLimit` is returned — the error is never propagated. -/
def attemptEstimateGas (config : ServerConfigParams)
    (estimateGas : Except Unit ℕ) : ℤ :=
  match estimateGas with
  | .ok e => round ((e : ℚ) * config.estimateGasFactor)
  | .error _ => config.defaultGasLimit

/-! ### removeConfirmedTransactions -/

/-- The recheck guard of `removeConfirmedTransactions`:
`minedBlockNumber == null || blockNumber - minedBlockNumber >=
confirmationsNeeded`. -/
def shouldRecheckTx (env : Env) (blockNumber : ℤ) (t : StoredTransaction) :
    Bool :=
  match t.minedBlockNumber with
  | none => true
  | some m => decide (env.config.confirmationsNeeded ≤ blockNumber - m)

/-- One iteration of the `removeConfirmedTransactions` loop over a row of
the snapshot, acting on the current store: skip when the recheck guard
fails, skip when the receipt or its block number is absent, record a new
mined block when there are too few confirmations, otherwise prune every row
of the receipt's sender up to the receipt's nonce. -/
def reapRow (env : Env) (blockNumber : ℤ) (store : List StoredTransaction)
    (transaction : StoredTransaction) : List StoredTransaction :=
  if shouldRecheckTx env blockNumber transaction then
    match env.getTransaction transaction.txId with
    | none => store
    | some receipt =>
      match receipt.blockNumber with
      | none => store
      | some receiptBlock =>
        let confirmations := blockNumber - receiptBlock
        if some receiptBlock ≠ transaction.minedBlockNumber ∧
            confirmations < env.config.confirmationsNeeded then
          updateTransactionWithMinedBlock store transaction receiptBlock
        else
          removeTxsUntilNonce store receipt.fromAddr receipt.nonce
  else store

/-- The `for` loop of `removeConfirmedTransactions`: iterate over the
snapshot of sorted rows, threading the store. -/
def reapLoop (env : Env) (blockNumber : ℤ) :
    List StoredTransaction → List StoredTransaction → List StoredTransaction
  | [], store => store
  | t :: ts, store => reapLoop env blockNumber ts (reapRow env blockNumber store t)

/-- `removeConfirmedTransactions(blockNumber)`: load the sorted rows, bail
out when there are none, otherwise walk them with `reapRow`. -/
def removeConfirmedTransactions (env : Env) (st : ManagerState)
    (blockNumber : ℤ) : ManagerState :=
  let sortedTxs := getAll st.store
  if sortedTxs.isEmpty then st
  else { st with store := reapLoop env blockNumber sortedTxs st.store }

/-! ### boostUnderpricedPendingTransactionsForSigner -/

/-- The `for` loop of `boostUnderpricedPendingTransactionsForSigner`:
resend each underpriced row, recording `old txId ↦ result` in order; a
resend failure propagates as the overall result (the accumulated map is
discarded, as a thrown JS exception discards the local variable). -/
def boostLoop (env : Env) (currentBlockHeight : ℤ) (newGasPrice : ℚ)
    (isMaxGasPriceReached : Bool) :
    List StoredTransaction → ManagerState →
    List (String × SignedTransactionDetails) →
    ManagerState × Except TxError (List (String × SignedTransactionDetails))
  | [], st, acc => (st, .ok acc)
  | t :: ts, st, acc =>
    match resendTransaction env st t currentBlockHeight newGasPrice
        isMaxGasPriceReached with
    | (st1, .error e) => (st1, .error e)
    | (st1, .ok details) =>
      boostLoop env currentBlockHeight newGasPrice isMaxGasPriceReached ts st1
        (acc ++ [(t.txId, details)])

/-- `boostUnderpricedPendingTransactionsForSigner(signer, currentBlockHeight)`:
return empty when the signer has no rows, when the oldest row's nonce is
already below the chain's latest transaction count, or when the oldest
row's reference block is younger than `pendingTransactionTimeoutBlocks`;
otherwise compute the boosted gas price from the oldest row and resend
every row whose gas price lies strictly below it.  The returned association
list is the `Map` of old `txId` to resend result, in insertion order. -/
def boostUnderpricedPendingTransactionsForSigner (env : Env)
    (st : ManagerState) (signer : String) (currentBlockHeight : ℤ) :
    ManagerState × Except TxError (List (String × SignedTransactionDetails)) :=
  match getAllBySigner st.store signer with
  | [] => (st, .ok [])
  | oldestPendingTx :: rest =>
    let nonce := env.getTransactionCountLatest signer
    if oldestPendingTx.nonce < nonce then (st, .ok [])
    else
      let lastSentAtBlockHeight :=
        oldestPendingTx.boostBlockNumber.getD oldestPendingTx.creationBlockNumber
      if currentBlockHeight - lastSentAtBlockHeight <
          env.config.pendingTransactionTimeoutBlocks then (st, .ok [])
      else
        let resolved := _resolveNewGasPrice env.config oldestPendingTx.gasPrice
        let underpricedTransactions := (oldestPendingTx :: rest).filter
          (fun it => it.gasPrice < resolved.1)
        boostLoop env currentBlockHeight resolved.1 resolved.2
          underpricedTransactions st []

/-! ### Concrete test fixtures

Small closed instances used to evaluate the embedded operations on
concrete inputs. -/

/-- A manager key manager owning the single address `0xaaaa`. -/
def kmManager0 : KeyManager := { ownedAddresses := ["0xaaaa"] }

/-- A workers key manager owning the single address `0xbbbb`. -/
def kmWorkers0 : KeyManager := { ownedAddresses := ["0xbbbb"] }

/-- A concrete configuration: retry factor 1.5, gas price cap 100,
estimation factor 1.1, default gas limit 500000, 12 confirmations, 10
timeout blocks. -/
def cfg0 : ServerConfigParams :=
  { retryGasPriceFactor := 3 / 2
    maxGasPrice := 100
    estimateGasFactor := 11 / 10
    defaultGasLimit := 500000
    confirmationsNeeded := 12
    pendingTransactionTimeoutBlocks := 10 }

/-- A concrete environment: constant oracles, zero transaction counts, no
receipts, and a broadcast that returns exactly the locally derived hash. -/
def env0 : Env :=
  { managerKeyManager := kmManager0
    workersKeyManager := kmWorkers0
    sign := fun _ _ => "0xSIGNED"
    keccak := fun _ => "0xhash"
    getGasPrice := 1
    getTransactionCountPending := fun _ => 0
    getTransactionCountLatest := fun _ => 0
    broadcastTransaction := fun _ => "0xhash"
    getTransaction := fun _ => none
    config := cfg0 }

/-- A stored row of signer `0xaaaa` at nonce 5. -/
def rowDup : StoredTransaction :=
  { txId := "0xoldid"
    fromAddr := "0xaaaa"
    toAddr := "0xdddd"
    nonce := 5
    gas := 21000
    gasPrice := 1
    data := ""
    value := 0
    serverAction := ServerAction.ValueTransfer
    creationBlockNumber := 100
    boostBlockNumber := none
    minedBlockNumber := none
    attempts := 1 }

/-- Manager state whose counter for `0xaaaa` is 5 while a row at
`(0xaaaa, 5)` already sits in the store, so the next `put` of a send at
nonce 5 fails with `DuplicateNonce`. -/
def stDup : ManagerState :=
  { nonces := Function.update (fun _ => none) "0xaaaa" (some 5)
    store := [rowDup] }

/-- A send request from `0xaaaa` with an explicit gas price. -/
def dSend0 : SendTransactionDetails :=
  { signer := "0xaaaa"
    serverAction := ServerAction.ValueTransfer
    method := none
    destination := "0xdddd"
    value := none
    gasLimit := 21000
    gasPrice := some 1
    creationBlockNumber := 100 }

/-- A pending row of signer `0xaaaa` whose gas price already equals the
configured `maxGasPrice`, so a boost clamps down to the same price. -/
def rowCap : StoredTransaction :=
  { rowDup with txId := "0xcapid", nonce := 0, gasPrice := 100 }

/-- State holding only `rowCap`; its counters are irrelevant. -/
def stCap : ManagerState :=
  { nonces := fun _ => none, store := [rowCap] }

/-- A pending row of signer `0xaaaa` with a low gas price (10), cheap
enough for a boost to reprice it. -/
def rowLow : StoredTransaction :=
  { rowDup with txId := "0xlowid", nonce := 0, gasPrice := 10 }

/-- State holding only `rowLow`. -/
def stLow : ManagerState :=
  { nonces := fun _ => none, store := [rowLow] }

/-- The resend result produced under `env0`: the broadcast echoes the
locally derived hash. -/
def dtl0 : SignedTransactionDetails :=
  { transactionHash := "0xhash", signedTx := "0xSIGNED" }

/-- Fresh manager state for `0xaaaa`: counter 0, empty store. -/
def stFresh : ManagerState :=
  { nonces := Function.update (fun _ => none) "0xaaaa" (some 0)
    store := [] }

/-- A stored row from the unknown signer `0xcccc` (owned by neither key
manager). -/
def rowUnknown : StoredTransaction :=
  { rowDup with fromAddr := "0xcccc" }

/-- A send request from the unknown signer `0xcccc`. -/
def dUnknown : SendTransactionDetails :=
  { dSend0 with signer := "0xcccc" }

/-! ### Theorems -/

/-- C9: `attemptEstimateGas` never propagates a chain error — on a
successful estimation it returns the estimate scaled by
`estimateGasFactor` and rounded, and on a failed estimation it returns the
configured `defaultGasLimit`; being a total function into `ℤ`, it raises
nothing. -/
theorem attemptEstimateGas_spec (config : ServerConfigParams) (e : ℕ)
    (err : Unit) :
    attemptEstimateGas config (Except.ok e) =
      round ((e : ℚ) * config.estimateGasFactor) ∧
    attemptEstimateGas config (Except.error err) = config.defaultGasLimit :=
  ⟨rfl, rfl⟩

/-- C4 counterexample: the claim says the uncapped result is
`floor(old × retry_gas_price_factor)`, but the source applies no floor —
with `old = 5` and factor 3/2 the product 15/2 is within the cap and is
returned as the fractional 15/2, not as `floor(15/2) = 7`. -/
theorem resolveNewGasPrice_no_floor_cex :
    (5 : ℚ) * cfg0.retryGasPriceFactor ≤ (cfg0.maxGasPrice : ℚ) ∧
    (_resolveNewGasPrice cfg0 5).2 = false ∧
    (_resolveNewGasPrice cfg0 5).1 ≠
      ((Int.floor ((5 : ℚ) * cfg0.retryGasPriceFactor) : ℤ) : ℚ) := by
  refine ⟨?_, ?_, ?_⟩
  · with_unfolding_all decide
  · with_unfolding_all decide
  · with_unfolding_all decide

/-- C4 (amended): `_resolveNewGasPrice old` returns the exact product
`old × retry_gas_price_factor` (no floor is applied) with `capped = false`
whenever the product does not exceed `maxGasPrice`, including the boundary
case of equality; it returns `maxGasPrice` with `capped = true` when the
product strictly exceeds `maxGasPrice`. -/
theorem resolveNewGasPrice_spec (config : ServerConfigParams)
    (oldGasPrice : ℚ) :
    (oldGasPrice * config.retryGasPriceFactor ≤ (config.maxGasPrice : ℚ) →
      _resolveNewGasPrice config oldGasPrice =
        (oldGasPrice * config.retryGasPriceFactor, false)) ∧
    ((config.maxGasPrice : ℚ) < oldGasPrice * config.retryGasPriceFactor →
      _resolveNewGasPrice config oldGasPrice =
        ((config.maxGasPrice : ℚ), true)) := by
  constructor
  · intro h
    unfold _resolveNewGasPrice
    rw [if_neg (not_lt.mpr h)]
  · intro h
    unfold _resolveNewGasPrice
    rw [if_pos h]

/-- C4 witness: the amended theorem applied at the concrete configuration
`cfg0`, once below the cap (4 × 3/2 = 6 ≤ 100, not capped) and once above
it (80 × 3/2 = 120 > 100, capped to 100). -/
theorem resolveNewGasPrice_spec_witness :
    ((4 : ℚ) * cfg0.retryGasPriceFactor ≤ (cfg0.maxGasPrice : ℚ) ∧
      _resolveNewGasPrice cfg0 4 = ((4 : ℚ) * cfg0.retryGasPriceFactor, false)) ∧
    ((cfg0.maxGasPrice : ℚ) < (80 : ℚ) * cfg0.retryGasPriceFactor ∧
      _resolveNewGasPrice cfg0 80 = ((cfg0.maxGasPrice : ℚ), true)) :=
  ⟨⟨by with_unfolding_all decide,
    (resolveNewGasPrice_spec cfg0 4).1 (by with_unfolding_all decide)⟩,
   ⟨by with_unfolding_all decide,
    (resolveNewGasPrice_spec cfg0 80).2 (by with_unfolding_all decide)⟩⟩

/-- C2: when neither key manager owns the requested signer,
`sendTransaction` fails with `UnknownSigner` (the worker key manager is
selected by the fallback and cannot sign for an address it does not hold),
and `resendTransaction` of a stored row whose sender is owned by neither
fails the same way. -/
theorem unknownSigner_send_resend (env : Env) (st st2 : ManagerState)
    (d : SendTransactionDetails) (tx : StoredTransaction) (cb : ℤ) (gp : ℚ)
    (capped : Bool)
    (h1 : env.managerKeyManager.isSigner d.signer = false)
    (h2 : env.workersKeyManager.isSigner d.signer = false)
    (h3 : env.managerKeyManager.isSigner tx.fromAddr = false)
    (h4 : env.workersKeyManager.isSigner tx.fromAddr = false) :
    (sendTransaction env st d).2 = Except.error TxError.UnknownSigner ∧
    (resendTransaction env st2 tx cb gp capped).2 =
      Except.error TxError.UnknownSigner := by
  constructor
  · simp only [sendTransaction, KeyManager.signTransaction, h1, h2]
    simp [h2]
  · simp only [resendTransaction, KeyManager.signTransaction, h3, h4]
    simp [h4]

/-- C2 witness: the theorem applied at the concrete signer `0xcccc`, which
neither `kmManager0` nor `kmWorkers0` owns. -/
theorem unknownSigner_send_resend_witness :
    (env0.managerKeyManager.isSigner "0xcccc" = false ∧
      env0.workersKeyManager.isSigner "0xcccc" = false) ∧
    (sendTransaction env0 stFresh dUnknown).2 =
      Except.error TxError.UnknownSigner ∧
    (resendTransaction env0 stFresh rowUnknown 110 15 false).2 =
      Except.error TxError.UnknownSigner :=
  ⟨⟨by decide, by decide⟩,
   unknownSigner_send_resend env0 stFresh stFresh dUnknown rowUnknown 110 15
     false (by decide) (by decide) (by decide) (by decide)⟩

/-- C10: after `_initNonces` only address 0 of the manager key manager and
address 0 of the workers key manager hold a counter entry; for any other
signer the entry is absent, the JS comparison of a chain count against the
missing entry is `false` for every count (so the nonce-fix branch never
fires), and `pollNonce` leaves the counter map unchanged and returns the
absent entry. -/
theorem initNonces_pollNonce_unknown (env : Env) (s : String) (n : ℕ)
    (h1 : s ≠ env.managerKeyManager.getAddress 0)
    (h2 : s ≠ env.workersKeyManager.getAddress 0) :
    (∀ a, (_initNonces env a).isSome →
      a = env.managerKeyManager.getAddress 0 ∨
      a = env.workersKeyManager.getAddress 0) ∧
    _initNonces env s = none ∧
    jsGtOpt n (_initNonces env s) = false ∧
    pollNonce env (_initNonces env) s = (_initNonces env, none) := by
  have h0 : _initNonces env s = none := by
    unfold _initNonces
    rw [Function.update_noteq h2, Function.update_noteq h1]
  refine ⟨?_, h0, ?_, ?_⟩
  · intro a ha
    by_contra hc
    push_neg at hc
    unfold _initNonces at ha
    rw [Function.update_noteq hc.2, Function.update_noteq hc.1] at ha
    simp at ha
  · rw [h0]
    rfl
  · unfold pollNonce jsGtOpt
    rw [h0]
    simp

/-- C10 witness: the theorem applied at the concrete signer `0xcccc`,
distinct from both configured address-0 signers of `env0`, with chain
pending count 7. -/
theorem initNonces_pollNonce_unknown_witness :
    ("0xcccc" ≠ env0.managerKeyManager.getAddress 0 ∧
      "0xcccc" ≠ env0.workersKeyManager.getAddress 0) ∧
    _initNonces env0 "0xcccc" = none ∧
    jsGtOpt 7 (_initNonces env0 "0xcccc") = false ∧
    pollNonce env0 (_initNonces env0) "0xcccc" = (_initNonces env0, none) :=
  ⟨⟨by decide, by decide⟩,
   ((initNonces_pollNonce_unknown env0 "0xcccc" 7 (by decide) (by decide)).2.1),
   ((initNonces_pollNonce_unknown env0 "0xcccc" 7 (by decide) (by decide)).2.2.1),
   ((initNonces_pollNonce_unknown env0 "0xcccc" 7 (by decide) (by decide)).2.2.2)⟩

/-- The entry `pollNonce` returns is the updated counter map read at the
polled signer. -/
theorem pollNonce_snd (env : Env) (nonces : String → Option ℕ) (s : String) :
    (pollNonce env nonces s).2 = (pollNonce env nonces s).1 s := by
  simp only [pollNonce]
  split <;> rfl

/-- C1 counterexample: the claim says a failed `put` leaves the signer's
counter untouched, but the source increments the counter on line 187,
immediately before the `put` on line 188 — under `env0`, with the counter
for `0xaaaa` at 5 and a row already stored at `(0xaaaa, 5)`, the `put`
fails with `DuplicateNonce` yet the counter ends at 6. -/
theorem sendTransaction_put_failure_cex :
    (sendTransaction env0 stDup dSend0).2 =
      Except.error TxError.DuplicateNonce ∧
    stDup.nonces "0xaaaa" = some 5 ∧
    (sendTransaction env0 stDup dSend0).1.nonces "0xaaaa" = some 6 ∧
    (sendTransaction env0 stDup dSend0).1.nonces "0xaaaa" ≠
      stDup.nonces "0xaaaa" := by
  refine ⟨rfl, rfl, rfl, by decide⟩

/-- C1 (amended): the per-signer counter is incremented immediately before
the `TxStore` put, not after it — in every `sendTransaction` call whose
`put` fails with `DuplicateNonce`, the counter map after the call is the
polled map with the signer's entry incremented (one above the value
`pollNonce` returned), and the store is unchanged. -/
theorem sendTransaction_put_failure_counter (env : Env) (st : ManagerState)
    (d : SendTransactionDetails)
    (h : (sendTransaction env st d).2 = Except.error TxError.DuplicateNonce) :
    (sendTransaction env st d).1.nonces =
      bumpNonce (sendNoncePair env st d).1 d.signer ∧
    (sendTransaction env st d).1.nonces d.signer =
      ((sendNoncePair env st d).2).map (fun c => c + 1) ∧
    (sendTransaction env st d).1.store = st.store := by
  cases hk : KeyManager.signTransaction
      (if env.managerKeyManager.isSigner d.signer then env.managerKeyManager
       else env.workersKeyManager) env.sign d.signer (sendTxToSign env st d) with
  | error e =>
    have he : e = TxError.UnknownSigner := by
      unfold KeyManager.signTransaction at hk
      split at hk
      · exact absurd hk (by simp)
      · split at hk
        · exact absurd hk (by simp)
        · injection hk with hke
          exact hke.symm
    rw [he] at hk
    simp only [sendTransaction, hk] at h
    exact absurd h (by simp)
  | ok signedTx =>
    cases hp : putTx st.store (sendStoredTx env st d) false with
    | error e2 =>
      refine ⟨?_, ?_, ?_⟩ <;>
        simp only [sendTransaction, hk, hp, bumpNonce, sendNoncePair]
      · rw [Function.update_same, pollNonce_snd]
    | ok store1 =>
      simp only [sendTransaction, hk, hp] at h
      split at h <;> simp at h

/-- C1 witness (for the amended theorem): applied at the concrete
duplicate-nonce state — the polled value is 5 and the counter ends at 6
while the store keeps its single old row. -/
theorem sendTransaction_put_failure_counter_witness :
    (sendTransaction env0 stDup dSend0).2 =
      Except.error TxError.DuplicateNonce ∧
    (sendTransaction env0 stDup dSend0).1.nonces =
      bumpNonce (sendNoncePair env0 stDup dSend0).1 "0xaaaa" ∧
    (sendTransaction env0 stDup dSend0).1.nonces "0xaaaa" =
      ((sendNoncePair env0 stDup dSend0).2).map (fun c => c + 1) ∧
    (sendTransaction env0 stDup dSend0).1.store = stDup.store :=
  ⟨rfl, sendTransaction_put_failure_counter env0 stDup dSend0 rfl⟩

/-- C8: for a recheck-eligible row, one sweep step leaves the store
unchanged when the receipt or its block number is absent; when the
receipt's block differs from the stored `minedBlockNumber` and the
confirmation depth is still below `confirmationsNeeded`, the only change is
recording the mined block through `put(replace_existing = true)` (the
updated row is present and every row with a different `(from, nonce)` key
is preserved); and when the depth reaches `confirmationsNeeded`, the step
is exactly `removeTxsUntilNonce(receipt.from, receipt.nonce)`. -/
theorem reapRow_spec (env : Env) (bn : ℤ) (store : List StoredTransaction)
    (t : StoredTransaction) (hre : shouldRecheckTx env bn t = true) :
    (env.getTransaction t.txId = none → reapRow env bn store t = store) ∧
    (∀ receipt, env.getTransaction t.txId = some receipt →
      receipt.blockNumber = none → reapRow env bn store t = store) ∧
    (∀ receipt rbn, env.getTransaction t.txId = some receipt →
      receipt.blockNumber = some rbn → some rbn ≠ t.minedBlockNumber →
      bn - rbn < env.config.confirmationsNeeded →
      reapRow env bn store t = updateTransactionWithMinedBlock store t rbn ∧
      { t with minedBlockNumber := some rbn } ∈ reapRow env bn store t ∧
      ∀ r ∈ store, ¬ (r.fromAddr = t.fromAddr ∧ r.nonce = t.nonce) →
        r ∈ reapRow env bn store t) ∧
    (∀ receipt rbn, env.getTransaction t.txId = some receipt →
      receipt.blockNumber = some rbn →
      env.config.confirmationsNeeded ≤ bn - rbn →
      reapRow env bn store t =
        removeTxsUntilNonce store receipt.fromAddr receipt.nonce) := by
  refine ⟨?_, ?_, ?_, ?_⟩
  · intro hnone
    simp [reapRow, hre, hnone]
  · intro receipt hsome hbn
    simp [reapRow, hre, hsome, hbn]
  · intro receipt rbn hsome hbn hne hlt
    have hstep : reapRow env bn store t =
        updateTransactionWithMinedBlock store t rbn := by
      simp only [reapRow, hre, if_true, hsome, hbn]
      rw [if_pos ⟨hne, hlt⟩]
    refine ⟨hstep, ?_, ?_⟩
    · rw [hstep]
      unfold updateTransactionWithMinedBlock putTxReplace
      exact List.mem_append_right _ (List.mem_singleton.mpr rfl)
    · intro r hr hkey
      rw [hstep]
      unfold updateTransactionWithMinedBlock putTxReplace
      refine List.mem_append_left _ (List.mem_filter.mpr ⟨hr, ?_⟩)
      unfold sameKey
      simp only [Bool.not_eq_eq_eq_not, Bool.not_true, Bool.and_eq_false_imp]
      intro hfa
      rw [beq_iff_eq] at hfa
      rw [beq_eq_false_iff_ne]
      intro hno
      exact hkey ⟨hfa, hno⟩
  · intro receipt rbn hsome hbn hge
    simp only [reapRow, hre, if_true, hsome, hbn]
    rw [if_neg]
    intro hand
    exact absurd hand.2 (not_lt.mpr hge)

/-- C8 witness: the theorem applied to a fresh row (no mined block yet, so
the recheck guard holds) under `env0`, whose chain returns no receipt. -/
theorem reapRow_spec_witness :
    shouldRecheckTx env0 112 rowDup = true ∧
    (env0.getTransaction rowDup.txId = none →
      reapRow env0 112 [rowDup] rowDup = [rowDup]) :=
  ⟨rfl, (reapRow_spec env0 112 [rowDup] rowDup rfl).1⟩

/-- C7: `resendTransaction` rebuilds the transaction with the stored row's
`to`, `gasLimit`, `data` and `nonce`, the supplied new gas price and value
0; the replacement row bumps `attempts`, stamps `boostBlockNumber` with the
current block, derives a fresh `txId` from the new signature, preserves
`from`, `serverAction`, `creationBlockNumber` and `minedBlockNumber`, and
is written with `put(replace_existing = true)`. -/
theorem resendTransaction_frame (env : Env) (st : ManagerState)
    (tx : StoredTransaction) (currentBlock : ℤ) (newGasPrice : ℚ)
    (capped : Bool)
    (hs : (if env.managerKeyManager.isSigner tx.fromAddr
      then env.managerKeyManager
      else env.workersKeyManager).isSigner tx.fromAddr = true) :
    (resendTxToSign tx newGasPrice).toAddr = tx.toAddr ∧
    (resendTxToSign tx newGasPrice).gasLimit = tx.gas ∧
    (resendTxToSign tx newGasPrice).data = tx.data ∧
    (resendTxToSign tx newGasPrice).nonce = tx.nonce ∧
    (resendTxToSign tx newGasPrice).gasPrice = newGasPrice ∧
    (resendTxToSign tx newGasPrice).value = 0 ∧
    (updateTransactionWithAttempt env st.store (resendTxToSign tx newGasPrice)
        tx currentBlock).2.attempts = tx.attempts + 1 ∧
    (updateTransactionWithAttempt env st.store (resendTxToSign tx newGasPrice)
        tx currentBlock).2.boostBlockNumber = some currentBlock ∧
    (updateTransactionWithAttempt env st.store (resendTxToSign tx newGasPrice)
        tx currentBlock).2.txId =
      env.keccak (env.sign tx.fromAddr (resendTxToSign tx newGasPrice)) ∧
    (updateTransactionWithAttempt env st.store (resendTxToSign tx newGasPrice)
        tx currentBlock).2.fromAddr = tx.fromAddr ∧
    (updateTransactionWithAttempt env st.store (resendTxToSign tx newGasPrice)
        tx currentBlock).2.serverAction = tx.serverAction ∧
    (updateTransactionWithAttempt env st.store (resendTxToSign tx newGasPrice)
        tx currentBlock).2.creationBlockNumber = tx.creationBlockNumber ∧
    (updateTransactionWithAttempt env st.store (resendTxToSign tx newGasPrice)
        tx currentBlock).2.minedBlockNumber = tx.minedBlockNumber ∧
    putTx st.store
        (updateTransactionWithAttempt env st.store (resendTxToSign tx newGasPrice)
          tx currentBlock).2 true =
      Except.ok
        (updateTransactionWithAttempt env st.store (resendTxToSign tx newGasPrice)
          tx currentBlock).1 ∧
    (resendTransaction env st tx currentBlock newGasPrice capped).1.store =
      (updateTransactionWithAttempt env st.store (resendTxToSign tx newGasPrice)
        tx currentBlock).1 := by
  have hk : KeyManager.signTransaction
      (if env.managerKeyManager.isSigner tx.fromAddr then env.managerKeyManager
       else env.workersKeyManager) env.sign tx.fromAddr
      (resendTxToSign tx newGasPrice) =
      Except.ok (env.sign tx.fromAddr (resendTxToSign tx newGasPrice)) := by
    unfold KeyManager.signTransaction
    rw [if_pos hs]
  refine ⟨rfl, rfl, rfl, rfl, rfl, rfl, rfl, rfl, rfl, rfl, rfl, rfl, rfl,
    rfl, ?_⟩
  simp only [resendTransaction, hk]
  split <;> rfl

/-- C7 witness: the theorem applied to the concrete row `rowLow`, owned by
the manager key manager of `env0`, repriced to 15 at block 110. -/
theorem resendTransaction_frame_witness :
    ((if env0.managerKeyManager.isSigner rowLow.fromAddr
      then env0.managerKeyManager
      else env0.workersKeyManager).isSigner rowLow.fromAddr = true) ∧
    (resendTxToSign rowLow 15).value = 0 ∧
    (updateTransactionWithAttempt env0 stLow.store (resendTxToSign rowLow 15)
        rowLow 110).2.attempts = rowLow.attempts + 1 ∧
    (resendTransaction env0 stLow rowLow 110 15 false).1.store =
      (updateTransactionWithAttempt env0 stLow.store (resendTxToSign rowLow 15)
        rowLow 110).1 :=
  ⟨by decide,
   (resendTransaction_frame env0 stLow rowLow 110 15 false (by decide)).2.2.2.2.2.1,
   (resendTransaction_frame env0 stLow rowLow 110 15 false (by decide)).2.2.2.2.2.2.1,
   (resendTransaction_frame env0 stLow rowLow 110 15 false
     (by decide)).2.2.2.2.2.2.2.2.2.2.2.2.2.2⟩

/-- A non-replacing `put` that succeeds appends the new row. -/
theorem putTx_ok_append (store : List StoredTransaction)
    (tx : StoredTransaction) (store1 : List StoredTransaction)
    (hp : putTx store tx false = Except.ok store1) :
    store1 = store ++ [tx] := by
  unfold putTx at hp
  simp only [Bool.false_eq_true, if_false] at hp
  split at hp
  · exact absurd hp (by simp)
  · injection hp with hps
    exact hps.symm

/-- C6: once `sendTransaction` has signed and persisted the row, it fails
with `HashMismatch` exactly when the hash the broadcast returns differs
case-insensitively from the stored row's `txId`; in either outcome the
stored row sits in the resulting store, and on success the returned hash
equals the stored `txId` up to case. -/
theorem sendTransaction_hash_mismatch (env : Env) (st : ManagerState)
    (d : SendTransactionDetails) (store1 : List StoredTransaction)
    (hs : (if env.managerKeyManager.isSigner d.signer
      then env.managerKeyManager
      else env.workersKeyManager).isSigner d.signer = true)
    (hp : putTx st.store (sendStoredTx env st d) false = Except.ok store1) :
    ((sendTransaction env st d).2 =
        Except.error (TxError.HashMismatch
          (env.broadcastTransaction (sendSignedTx env st d))
          (sendStoredTx env st d).txId) ↔
      lowerStr (env.broadcastTransaction (sendSignedTx env st d)) ≠
        lowerStr (sendStoredTx env st d).txId) ∧
    (sendStoredTx env st d) ∈ (sendTransaction env st d).1.store ∧
    (∀ r, (sendTransaction env st d).2 = Except.ok r →
      lowerStr r.transactionHash = lowerStr (sendStoredTx env st d).txId) := by
  have hk : KeyManager.signTransaction
      (if env.managerKeyManager.isSigner d.signer then env.managerKeyManager
       else env.workersKeyManager) env.sign d.signer (sendTxToSign env st d) =
      Except.ok (sendSignedTx env st d) := by
    unfold KeyManager.signTransaction
    rw [if_pos hs]
    rfl
  have hmem : sendStoredTx env st d ∈ store1 := by
    rw [putTx_ok_append st.store (sendStoredTx env st d) store1 hp]
    exact List.mem_append_right _ (List.mem_singleton.mpr rfl)
  by_cases hb : lowerStr (env.broadcastTransaction (sendSignedTx env st d)) =
      lowerStr (sendStoredTx env st d).txId
  · refine ⟨?_, ?_, ?_⟩
    · simp only [sendTransaction, hk, hp]
      rw [if_neg (fun hcon => hcon hb)]
      simp [hb]
    · simp only [sendTransaction, hk, hp]
      rw [if_neg (fun hcon => hcon hb)]
      exact hmem
    · intro r hr
      simp only [sendTransaction, hk, hp] at hr
      rw [if_neg (fun hcon => hcon hb)] at hr
      injection hr with hre
      rw [← hre]
      exact hb
  · refine ⟨?_, ?_, ?_⟩
    · simp only [sendTransaction, hk, hp]
      rw [if_pos hb]
      simp [hb]
    · simp only [sendTransaction, hk, hp]
      rw [if_pos hb]
      exact hmem
    · intro r hr
      simp only [sendTransaction, hk, hp] at hr
      rw [if_pos hb] at hr
      exact absurd hr (by simp)

/-- C6 witness: the theorem applied to a fresh send from `0xaaaa` under
`env0`, whose broadcast echoes the locally derived hash, so the send
succeeds and the returned hash matches the stored row's id. -/
theorem sendTransaction_hash_mismatch_witness :
    ((if env0.managerKeyManager.isSigner dSend0.signer
      then env0.managerKeyManager
      else env0.workersKeyManager).isSigner dSend0.signer = true ∧
     putTx stFresh.store (sendStoredTx env0 stFresh dSend0) false =
       Except.ok [sendStoredTx env0 stFresh dSend0]) ∧
    (sendStoredTx env0 stFresh dSend0) ∈
      (sendTransaction env0 stFresh dSend0).1.store ∧
    (∀ r, (sendTransaction env0 stFresh dSend0).2 = Except.ok r →
      lowerStr r.transactionHash =
        lowerStr (sendStoredTx env0 stFresh dSend0).txId) :=
  ⟨⟨by decide, rfl⟩,
   (sendTransaction_hash_mismatch env0 stFresh dSend0
     [sendStoredTx env0 stFresh dSend0] (by decide) rfl).2.1,
   (sendTransaction_hash_mismatch env0 stFresh dSend0
     [sendStoredTx env0 stFresh dSend0] (by decide) rfl).2.2⟩

/-- Entries already accumulated by `boostLoop` survive into any successful
result. -/
theorem boostLoop_acc_mem (env : Env) (cb : ℤ) (gp : ℚ) (c : Bool) :
    ∀ (lst : List StoredTransaction) (st : ManagerState)
      (acc m : List (String × SignedTransactionDetails)),
      (boostLoop env cb gp c lst st acc).2 = Except.ok m →
      ∀ x ∈ acc, x ∈ m := by
  intro lst
  induction lst with
  | nil =>
    intro st acc m h x hx
    simp only [boostLoop] at h
    injection h with hm
    rw [← hm]
    exact hx
  | cons t ts ih =>
    intro st acc m h x hx
    simp only [boostLoop] at h
    rcases hp : resendTransaction env st t cb gp c with ⟨st1, res⟩
    rw [hp] at h
    cases res with
    | error e => simp at h
    | ok details =>
      dsimp only at h
      exact ih _ _ m h x (List.mem_append_left _ hx)

/-- A successful `boostLoop` run over a non-empty work list records an
entry for the first transaction's id. -/
theorem boostLoop_cons_ok (env : Env) (cb : ℤ) (gp : ℚ) (c : Bool)
    (t : StoredTransaction) (ts : List StoredTransaction) (st : ManagerState)
    (acc m : List (String × SignedTransactionDetails))
    (h : (boostLoop env cb gp c (t :: ts) st acc).2 = Except.ok m) :
    ∃ dtl, (t.txId, dtl) ∈ m := by
  simp only [boostLoop] at h
  rcases hp : resendTransaction env st t cb gp c with ⟨st1, res⟩
  rw [hp] at h
  cases res with
  | error e => simp at h
  | ok details =>
    dsimp only at h
    exact ⟨details,
      boostLoop_acc_mem env cb gp c ts _ _ m h _
        (List.mem_append_right _ (List.mem_singleton.mpr rfl))⟩

/-- C3 counterexample: the claim says that whenever the three guards pass,
the resent set includes the oldest row; but when the oldest row's gas price
already sits at `maxGasPrice`, the clamped new price equals the old one,
the strict filter `gasPrice < newGasPrice` excludes every row — the call
passes all guards yet returns an empty map without the oldest row's id. -/
theorem boost_oldest_excluded_cex :
    getAllBySigner stCap.store "0xaaaa" = [rowCap] ∧
    ¬ rowCap.nonce < env0.getTransactionCountLatest "0xaaaa" ∧
    ¬ (110 - (rowCap.boostBlockNumber.getD rowCap.creationBlockNumber) <
      env0.config.pendingTransactionTimeoutBlocks) ∧
    (boostUnderpricedPendingTransactionsForSigner env0 stCap "0xaaaa" 110).2 =
      Except.ok [] := by
  refine ⟨rfl, by decide, by decide, ?_⟩
  with_unfolding_all rfl

/-- C3 (amended): whenever the three guards pass and additionally the
oldest row's gas price lies strictly below the resolved new gas price (as
it does whenever the cap does not clamp the price down to or below the
oldest row's own price), every successfully returned mapping contains the
oldest row's id as a key. -/
theorem boost_oldest_resent (env : Env) (st : ManagerState) (signer : String)
    (cb : ℤ) (o : StoredTransaction) (rest : List StoredTransaction)
    (hrows : getAllBySigner st.store signer = o :: rest)
    (hnonce : ¬ o.nonce < env.getTransactionCountLatest signer)
    (htime : ¬ (cb - (o.boostBlockNumber.getD o.creationBlockNumber) <
      env.config.pendingTransactionTimeoutBlocks))
    (hgp : o.gasPrice < (_resolveNewGasPrice env.config o.gasPrice).1)
    (m : List (String × SignedTransactionDetails))
    (hok : (boostUnderpricedPendingTransactionsForSigner env st signer cb).2 =
      Except.ok m) :
    ∃ dtl, (o.txId, dtl) ∈ m := by
  simp only [boostUnderpricedPendingTransactionsForSigner, hrows] at hok
  rw [if_neg hnonce, if_neg htime] at hok
  rw [List.filter_cons, if_pos (by simpa using hgp)] at hok
  exact boostLoop_cons_ok env cb _ _ o _ st [] m hok

/-- C3 witness: the amended theorem applied to the cheap row `rowLow`
(gas price 10, boosted price 15) under `env0`, whose boost call returns the
single-entry map keyed by the old id. -/
theorem boost_oldest_resent_witness :
    (getAllBySigner stLow.store "0xaaaa" = [rowLow] ∧
      ¬ rowLow.nonce < env0.getTransactionCountLatest "0xaaaa" ∧
      ¬ (110 - (rowLow.boostBlockNumber.getD rowLow.creationBlockNumber) <
        env0.config.pendingTransactionTimeoutBlocks) ∧
      rowLow.gasPrice < (_resolveNewGasPrice env0.config rowLow.gasPrice).1 ∧
      (boostUnderpricedPendingTransactionsForSigner env0 stLow "0xaaaa" 110).2 =
        Except.ok [(rowLow.txId, dtl0)]) ∧
    ∃ dtl, (rowLow.txId, dtl) ∈ [(rowLow.txId, dtl0)] :=
  ⟨⟨rfl, by decide, by decide, by with_unfolding_all decide,
    by with_unfolding_all rfl⟩,
   boost_oldest_resent env0 stLow "0xaaaa" 110 rowLow [] rfl (by decide)
     (by decide) (by with_unfolding_all decide) [(rowLow.txId, dtl0)]
     (by with_unfolding_all rfl)⟩

/-- C5 counterexample: the claim says the boost returns empty and leaves
the store unchanged in exactly the three listed cases; here every listed
guard passes (rows exist, the oldest nonce is not below the chain count,
and the timeout has elapsed) yet the call still returns the empty map with
the state untouched, because the clamped new gas price leaves no row
strictly underpriced. -/
theorem boost_empty_unlisted_case_cex :
    boostUnderpricedPendingTransactionsForSigner env0 stCap "0xaaaa" 110 =
      (stCap, Except.ok []) ∧
    getAllBySigner stCap.store "0xaaaa" ≠ [] ∧
    ¬ rowCap.nonce < env0.getTransactionCountLatest "0xaaaa" ∧
    ¬ (110 - (rowCap.boostBlockNumber.getD rowCap.creationBlockNumber) <
      env0.config.pendingTransactionTimeoutBlocks) := by
  refine ⟨?_, ?_, by decide, by decide⟩
  · with_unfolding_all rfl
  · intro hcon
    exact absurd hcon (by with_unfolding_all decide)

/-- C5 (amended): the boost returns the empty mapping with the state
untouched exactly when the signer has no rows, or the oldest row's nonce is
below the chain's latest count, or the reference block is younger than the
timeout, or — additionally — no stored row's gas price lies strictly below
the resolved new gas price (as happens when the cap clamps the boost); at a
block difference exactly equal to the timeout the guard passes and the
boost proceeds. -/
theorem boost_empty_iff (env : Env) (st : ManagerState) (signer : String)
    (cb : ℤ) :
    boostUnderpricedPendingTransactionsForSigner env st signer cb =
      (st, Except.ok []) ↔
    (match getAllBySigner st.store signer with
     | [] => True
     | o :: rest =>
       o.nonce < env.getTransactionCountLatest signer ∨
       cb - (o.boostBlockNumber.getD o.creationBlockNumber) <
         env.config.pendingTransactionTimeoutBlocks ∨
       (o :: rest).filter
         (fun it => it.gasPrice < (_resolveNewGasPrice env.config o.gasPrice).1) =
         []) := by
  rcases hg : getAllBySigner st.store signer with _ | ⟨o, rest⟩
  · simp only [boostUnderpricedPendingTransactionsForSigner, hg]
  · simp only [boostUnderpricedPendingTransactionsForSigner, hg]
    constructor
    · intro h
      by_cases h1 : o.nonce < env.getTransactionCountLatest signer
      · exact Or.inl h1
      rw [if_neg h1] at h
      by_cases h2 : cb - (o.boostBlockNumber.getD o.creationBlockNumber) <
        env.config.pendingTransactionTimeoutBlocks
      · exact Or.inr (Or.inl h2)
      rw [if_neg h2] at h
      refine Or.inr (Or.inr ?_)
      by_contra hne
      obtain ⟨t, ts, hft⟩ := List.exists_cons_of_ne_nil hne
      rw [hft] at h
      obtain ⟨dtl, hdtl⟩ := boostLoop_cons_ok env cb
        (_resolveNewGasPrice env.config o.gasPrice).1
        (_resolveNewGasPrice env.config o.gasPrice).2 t ts st [] []
        (by rw [h])
      exact absurd hdtl (List.not_mem_nil _)
    · intro h
      by_cases h1 : o.nonce < env.getTransactionCountLatest signer
      · rw [if_pos h1]
      rw [if_neg h1]
      by_cases h2 : cb - (o.boostBlockNumber.getD o.creationBlockNumber) <
        env.config.pendingTransactionTimeoutBlocks
      · rw [if_pos h2]
      rw [if_neg h2]
      rcases h with h1x | h2x | h3
      · exact absurd h1x h1
      · exact absurd h2x h2
      · rw [h3]
        rfl

end RifRelay
